import Mathlib

/-!
Verification of the remote-desktop agent `src/rpi_server.py` against its
natural-language specification.

The repository's only source file is the WebRTC variant of the server: it
contains the xdotool input-injection functions (`inject_mouse_abs`,
`inject_key`), the DataChannel message handler (`on_message`) and the screen
capture track (`ScreenTrack.recv`).  Those parts are embedded below directly
from the source.  The spec additionally describes components that are not
present in the source tree (the length-prefixed Framing Codec, the
shared-secret authentication handshake with a timing-safe compare, the
`screen_size` announcement, and the RawDevice injector with its startup
fallback); those are modelled from the spec's words, each marked
`Modelled from the spec:` in its doc comment.

Machine integers are modelled as `Nat`/`Int`; byte streams as `List Nat`;
fallible calls as `Except`/`Option`; Python float arithmetic (the frame
scale factor) as `ℚ` with truncation toward zero for `int()`.
-/

/-! ## Framing Codec (spec-modelled) -/

/-- Modelled from the spec: the Framing Codec (`writeMessage`/`readMessage`,
spec §4.1, §6) is not present in `src/` (the source variant frames messages
through a WebRTC DataChannel instead).  Big-endian 4-byte encoding of a
32-bit unsigned length. -/
def be32 (n : Nat) : List Nat :=
  [n / 2 ^ 24 % 256, n / 2 ^ 16 % 256, n / 2 ^ 8 % 256, n % 256]

/-- Modelled from the spec: `writeMessage(channel, payloadBytes)` writes a
fixed-width big-endian length prefix (32-bit unsigned, covering payload
length only) followed by exactly that many payload bytes. -/
def writeMessage (payload : List Nat) : List Nat :=
  be32 payload.length ++ payload

/-- Modelled from the spec: read the 4-byte big-endian prefix from the head
of the stream; `none` models `ProtocolError` (peer closed before a full
prefix). -/
def readBE32 : List Nat → Option (Nat × List Nat)
  | b0 :: b1 :: b2 :: b3 :: rest => some (((b0 * 256 + b1) * 256 + b2) * 256 + b3, rest)
  | _ => none

/-- Modelled from the spec: `readMessage(channel)` reads the 4-byte prefix,
then exactly that many payload bytes; `none` models `ProtocolError` when the
channel closes early.  Returns the payload and the remaining stream. -/
def readMessage (stream : List Nat) : Option (List Nat × List Nat) :=
  match readBE32 stream with
  | none => none
  | some (len, rest) =>
    if rest.length < len then none
    else some (rest.take len, rest.drop len)

theorem readBE32_be32 (n : Nat) (rest : List Nat) (h : n < 2 ^ 32) :
    readBE32 (be32 n ++ rest) = some (n, rest) := by
  simp only [be32, List.cons_append, List.nil_append, readBE32, Option.some.injEq,
    Prod.mk.injEq]
  exact ⟨by omega, trivial⟩

/-- C2: `readMessage` inverts `writeMessage`: the 4-byte big-endian length
prefix covers only the payload length and is followed by exactly the payload
bytes, so reading a written message reproduces the payload exactly and
consumes nothing else from the stream. -/
theorem readMessage_writeMessage (payload rest : List Nat)
    (h : payload.length < 2 ^ 32) :
    readMessage (writeMessage payload ++ rest) = some (payload, rest)
      ∧ (writeMessage payload).length = 4 + payload.length
      ∧ (writeMessage payload).drop 4 = payload := by
  refine ⟨?_, ?_, ?_⟩
  · rw [writeMessage, List.append_assoc, readMessage, readBE32_be32 _ _ h]
    simp
  · simp only [writeMessage, be32, List.length_append, List.length_cons,
      List.length_nil]
  · simp [writeMessage, be32]

/-- Witness for C2 at a concrete payload. -/
theorem readMessage_writeMessage_witness :
    readMessage (writeMessage [10, 20, 30] ++ [7]) = some ([10, 20, 30], [7]) :=
  (readMessage_writeMessage [10, 20, 30] [7] (by decide)).1

/-! ## Python value model

`on_message` receives the result of `json.loads`; decoded JSON scalars are
modelled by `JVal`.  `pyInt` embeds Python's `int(...)` (which raises on a
non-numeric string or `None`), `pyTruthy` Python truthiness, `pyStr` Python's
`str(...)`. -/

inductive JVal where
  | num (n : Int)
  | str (s : String)
  | bool (b : Bool)
  | null
deriving DecidableEq, Repr

/-- A decoded JSON object, as produced by `json.loads` on a JSON object
literal: an association list of its fields. -/
abbrev JObj := List (String × JVal)

/-- Python `obj.get(k)`: `none` when the key is absent (Python `None`). -/
def JObj.get (o : JObj) (k : String) : Option JVal :=
  (o.find? (fun p => p.1 = k)).map (fun p => p.2)

/-- Python `obj.get(k, d)` with a default. -/
def JObj.getD (o : JObj) (k : String) (d : JVal) : JVal :=
  (o.get k).getD d

/-- Python `int(v)`: succeeds on numbers and booleans and on strings that
parse as an integer; raises (`.error`) otherwise. -/
def pyInt : JVal → Except Unit Int
  | .num n => .ok n
  | .bool b => .ok (if b then 1 else 0)
  | .str s => match s.toInt? with
    | some n => .ok n
    | none => .error ()
  | .null => .error ()

/-- Python truthiness of a decoded JSON value. -/
def pyTruthy : JVal → Bool
  | .num n => n ≠ 0
  | .str s => s ≠ ""
  | .bool b => b
  | .null => false

/-- Python `str(v)` for a decoded JSON value (as applied to `key`). -/
def pyStr : JVal → String
  | .str s => s
  | .num n => toString n
  | .bool b => if b then "True" else "False"
  | .null => "None"

/-! ## Input Injector: the xdotool backend (`src/rpi_server.py` 48-70)

One `subprocess.run(['xdotool', ...])` invocation is modelled as a `Cmd`;
the external `xdotool` process is modelled by a runner `run : Cmd → Bool`
(`false` = the call raises).  `attemptCmds` runs the commands of a `try`
block in order, stopping at the first raise; `tryInject` is the enclosing
`try/except` that logs and swallows the exception, so the inject functions
always return an `InjectResult` and never propagate an exception. -/

inductive Cmd where
  | mousemoveSync (x y : Int)
  | mousedown (btn : String)
  | mouseup (btn : String)
  | keydown (k : String)
  | keyup (k : String)
deriving DecidableEq, Repr

/-- Result of one inject call: the xdotool commands attempted (in order) and
whether `logging.exception` ran (an exception was caught). -/
structure InjectResult where
  attempted : List Cmd
  errorLogged : Bool
deriving DecidableEq, Repr

/-- Run the commands of a `try` block in order; `.error l` means an
exception was raised, with `l` the commands attempted up to and including
the raising one. -/
def attemptCmds (run : Cmd → Bool) : List Cmd → Except (List Cmd) (List Cmd)
  | [] => .ok []
  | c :: cs =>
    if run c then
      match attemptCmds run cs with
      | .ok rest => .ok (c :: rest)
      | .error rest => .error (c :: rest)
    else .error [c]

/-- The `try/except Exception: logging.exception(...)` wrapper shared by
`inject_mouse_abs` and `inject_key`: a raised exception is caught and
logged, never propagated. -/
def tryInject (run : Cmd → Bool) (cmds : List Cmd) : InjectResult :=
  match attemptCmds run cmds with
  | .ok a => ⟨a, false⟩
  | .error a => ⟨a, true⟩

/-- The xdotool command sequence of `inject_mouse_abs` (source lines 53-57):
move (with `--sync`) first, then a separate mousedown/mouseup with button
code `'1'` for `'left'` and `'3'` otherwise. -/
def mouseAbsCmds (x y : Int) (button pressed : JVal) : List Cmd :=
  [Cmd.mousemoveSync x y,
   if pyTruthy pressed then Cmd.mousedown (if button = .str "left" then "1" else "3")
   else Cmd.mouseup (if button = .str "left" then "1" else "3")]

/-- Embedding of `inject_mouse_abs` (source lines 48-59). -/
def inject_mouse_abs (run : Cmd → Bool) (x y : Int) (button pressed : JVal) :
    InjectResult :=
  tryInject run (mouseAbsCmds x y button pressed)

/-- The xdotool command sequence of `inject_key` (source lines 65-68):
`keydown str(key)` when pressed, else `keyup str(key)`. -/
def keyCmds (key pressed : JVal) : List Cmd :=
  [if pyTruthy pressed then Cmd.keydown (pyStr key) else Cmd.keyup (pyStr key)]

/-- Embedding of `inject_key` (source lines 61-70). -/
def inject_key (run : Cmd → Bool) (key pressed : JVal) : InjectResult :=
  tryInject run (keyCmds key pressed)

/-! ## DataChannel message handler (`on_message`, source lines 148-169) -/

/-- Result of one `on_message` call: the xdotool commands attempted through
the injector, and whether the "Invalid DC message" warning was logged. -/
structure HandlerResult where
  attempted : List Cmd
  invalidLogged : Bool
deriving DecidableEq, Repr

/-- Embedding of `on_message` (source lines 148-169).  The wire payload is
represented by the outcome of `json.loads`: `none` models a decode
exception (the `try/except` around `json.loads`), `some obj` a decoded JSON
object.  The `.error` result models an exception escaping the handler
(only `int(...)` on the `mouse_abs` path can raise outside the `try`). -/
def on_message (run : Cmd → Bool) (msg : Option JObj) : Except Unit HandlerResult :=
  match msg with
  | none => .ok ⟨[], true⟩
  | some obj =>
    let typ := obj.get "type"
    if typ = some (.str "mouse_abs") then
      match pyInt (obj.getD "x" (.num 0)), pyInt (obj.getD "y" (.num 0)) with
      | .ok x, .ok y =>
        let button := obj.getD "button" (.str "left")
        let pressed := obj.getD "pressed" (.bool true)
        .ok ⟨(inject_mouse_abs run x y button pressed).attempted, false⟩
      | .error e, _ => .error e
      | _, .error e => .error e
    else if typ = some (.str "key") then
      let key := (obj.get "key").getD .null
      let pressed := obj.getD "pressed" (.bool true)
      .ok ⟨(inject_key run key pressed).attempted, false⟩
    else
      .ok ⟨[], false⟩

/-! ## Lemmas about the try-block runner -/

theorem attemptCmds_ok_of_all (run : Cmd → Bool) (l : List Cmd)
    (h : l.all run = true) : attemptCmds run l = .ok l := by
  induction l with
  | nil => rfl
  | cons c cs ih =>
    simp only [List.all_cons, Bool.and_eq_true] at h
    simp [attemptCmds, h.1, ih h.2]

theorem attemptCmds_error_of_all (run : Cmd → Bool) (l : List Cmd)
    (h : l.all run = false) :
    ∃ a t, attemptCmds run l = .error a ∧ a ++ t = l := by
  induction l with
  | nil => simp at h
  | cons c cs ih =>
    by_cases hc : run c = true
    · simp only [List.all_cons, hc, Bool.true_and] at h
      obtain ⟨a, t, ha, hat⟩ := ih h
      exact ⟨c :: a, t, by simp [attemptCmds, hc, ha], by simp [hat]⟩
    · refine ⟨[c], cs, ?_, rfl⟩
      simp only [Bool.not_eq_true] at hc
      simp [attemptCmds, hc]

/-- C6: an absolute mouse command through the xdotool backend first issues a
synchronous cursor reposition to `(x, y)`, and only then a separate
mousedown (when pressed) or mouseup (when not pressed) for the button: two
distinct non-atomic subprocess commands in that order. -/
theorem mouse_abs_move_then_button (run : Cmd → Bool) (x y : Int)
    (button pressed : JVal) (hrun : ∀ c, run c = true) :
    (inject_mouse_abs run x y button pressed).attempted
      = [Cmd.mousemoveSync x y,
         if pyTruthy pressed then
           Cmd.mousedown (if button = .str "left" then "1" else "3")
         else Cmd.mouseup (if button = .str "left" then "1" else "3")]
    ∧ (inject_mouse_abs run x y button pressed).errorLogged = false := by
  have hall : (mouseAbsCmds x y button pressed).all run = true := by
    simp [List.all_eq_true, hrun]
  rw [inject_mouse_abs, tryInject, attemptCmds_ok_of_all run _ hall]
  exact ⟨rfl, rfl⟩

/-- Witness for C6: left-click press at (5, 6) with a healthy backend. -/
theorem mouse_abs_move_then_button_witness :
    (inject_mouse_abs (fun _ => true) 5 6 (.str "left") (.bool true)).attempted
      = [Cmd.mousemoveSync 5 6, Cmd.mousedown "1"]
    ∧ (inject_mouse_abs (fun _ => true) 5 6 (.str "left") (.bool true)).errorLogged
        = false := by
  have h := mouse_abs_move_then_button (fun _ => true) 5 6 (.str "left") (.bool true)
    (fun _ => rfl)
  simpa [pyTruthy] using h

/-- C7: when the backend raises during injection, both inject functions
catch the exception and log it (`errorLogged = true`), the attempted
commands are an initial segment of the nominal sequence (the failing
command is dropped, nothing is retried), and the functions return normally
(an `InjectResult`, never a propagated exception). -/
theorem inject_error_swallowed (run : Cmd → Bool) (x y : Int)
    (button pressed key : JVal)
    (hm : (mouseAbsCmds x y button pressed).all run = false)
    (hk : (keyCmds key pressed).all run = false) :
    (inject_mouse_abs run x y button pressed).errorLogged = true
    ∧ (∃ t, (inject_mouse_abs run x y button pressed).attempted ++ t
          = mouseAbsCmds x y button pressed)
    ∧ (inject_key run key pressed).errorLogged = true
    ∧ ∃ t, (inject_key run key pressed).attempted ++ t = keyCmds key pressed := by
  obtain ⟨a, t, ha, hat⟩ := attemptCmds_error_of_all run _ hm
  obtain ⟨a2, t2, ha2, hat2⟩ := attemptCmds_error_of_all run _ hk
  rw [inject_mouse_abs, inject_key, tryInject, tryInject, ha, ha2]
  exact ⟨rfl, ⟨t, hat⟩, rfl, ⟨t2, hat2⟩⟩

/-- Witness for C7: a backend whose every call raises. -/
theorem inject_error_swallowed_witness :
    (inject_mouse_abs (fun _ => false) 1 2 (.str "left") (.bool true)).errorLogged
        = true
    ∧ (∃ t, (inject_mouse_abs (fun _ => false) 1 2 (.str "left") (.bool true)).attempted
          ++ t = mouseAbsCmds 1 2 (.str "left") (.bool true))
    ∧ (inject_key (fun _ => false) (.str "a") (.bool true)).errorLogged = true
    ∧ ∃ t, (inject_key (fun _ => false) (.str "a") (.bool true)).attempted ++ t
        = keyCmds (.str "a") (.bool true) :=
  inject_error_swallowed (fun _ => false) 1 2 (.str "left") (.bool true) (.str "a")
    (by decide) (by decide)

/-- C5: a payload that is not valid JSON makes `on_message` log the
"Invalid DC message" warning and return at once: no injector command is
attempted and the handler returns normally, so the session continues. -/
theorem decode_failure_logged_continues (run : Cmd → Bool) :
    on_message run none = .ok ⟨[], true⟩ := rfl

/-- C9: a successfully decoded message whose `type` is neither `mouse_abs`
nor `key` (including the spec's `mouse_move` and `mouse_button` kinds)
reaches the final else branch: no injector command is attempted, nothing is
logged as invalid, and the handler returns normally. -/
theorem unknown_type_no_injection (run : Cmd → Bool) (obj : JObj)
    (h1 : obj.get "type" ≠ some (.str "mouse_abs"))
    (h2 : obj.get "type" ≠ some (.str "key")) :
    on_message run (some obj) = .ok ⟨[], false⟩ := by
  simp only [on_message]
  rw [if_neg h1, if_neg h2]

/-- Witness for C9: a `mouse_move` relative-move message is ignored. -/
theorem unknown_type_no_injection_witness :
    on_message (fun _ => true)
      (some [("type", JVal.str "mouse_move"), ("dx", JVal.num 10),
             ("dy", JVal.num (-5))]) = .ok ⟨[], false⟩ :=
  unknown_type_no_injection (fun _ => true)
    [("type", JVal.str "mouse_move"), ("dx", JVal.num 10), ("dy", JVal.num (-5))]
    (by decide) (by decide)

/-! ## Control dispatch order (C4)

The DataChannel delivers control messages one at a time in arrival order and
`on_message` is a plain synchronous callback: each message's injector
commands are issued before the next message is handled.  `dispatchLog` is
the injector's recorded command log over a message sequence; an exception
escaping the handler (only `int(...)` on the `mouse_abs` path) is modelled
conservatively as ending dispatch. -/

/-- Whether `on_message` returns normally on this message. -/
def handlerOk (run : Cmd → Bool) (m : Option JObj) : Bool :=
  match on_message run m with
  | .ok _ => true
  | .error _ => false

/-- The injector commands one handler invocation issues for one message. -/
def messageCmds (run : Cmd → Bool) (m : Option JObj) : List Cmd :=
  match on_message run m with
  | .ok r => r.attempted
  | .error _ => []

/-- Sequential processing of the inbound message sequence: the recorded
injector command log. -/
def dispatchLog (run : Cmd → Bool) : List (Option JObj) → List Cmd
  | [] => []
  | m :: ms =>
    match on_message run m with
    | .ok r => r.attempted ++ dispatchLog run ms
    | .error _ => []

/-- C4: over any inbound message sequence on which every handler invocation
returns normally, the injector command log is the in-order concatenation of
each message's commands: message i's commands are all dispatched before any
command of message i+1 (strict per-session FIFO, synchronous dispatch). -/
theorem control_dispatch_fifo (run : Cmd → Bool) (msgs : List (Option JObj))
    (h : ∀ m ∈ msgs, handlerOk run m = true) :
    dispatchLog run msgs = (msgs.map (messageCmds run)).flatten := by
  induction msgs with
  | nil => rfl
  | cons m ms ih =>
    have hm : handlerOk run m = true := h m (List.mem_cons_self m ms)
    have hms : ∀ x ∈ ms, handlerOk run x = true :=
      fun x hx => h x (List.mem_cons_of_mem m hx)
    rw [List.map_cons, List.flatten_cons, ← ih hms]
    unfold handlerOk at hm
    cases hon : on_message run m with
    | ok r => simp only [dispatchLog, messageCmds, hon]
    | error e => rw [hon] at hm; simp at hm

/-- Witness for C4: a `mouse_abs`, a `key` and an ignored `mouse_move`
message dispatched in order against a healthy backend. -/
theorem control_dispatch_fifo_witness :
    (∀ m ∈ [some [("type", JVal.str "mouse_abs"), ("x", JVal.num 3), ("y", JVal.num 4)],
            some [("type", JVal.str "key"), ("key", JVal.str "a")],
            some [("type", JVal.str "mouse_move"), ("dx", JVal.num 10)]],
        handlerOk (fun _ => true) m = true)
    ∧ dispatchLog (fun _ => true)
        [some [("type", JVal.str "mouse_abs"), ("x", JVal.num 3), ("y", JVal.num 4)],
         some [("type", JVal.str "key"), ("key", JVal.str "a")],
         some [("type", JVal.str "mouse_move"), ("dx", JVal.num 10)]]
      = ([some [("type", JVal.str "mouse_abs"), ("x", JVal.num 3), ("y", JVal.num 4)],
          some [("type", JVal.str "key"), ("key", JVal.str "a")],
          some [("type", JVal.str "mouse_move"), ("dx", JVal.num 10)]].map
            (messageCmds (fun _ => true))).flatten :=
  ⟨by decide,
   control_dispatch_fifo (fun _ => true)
     [some [("type", JVal.str "mouse_abs"), ("x", JVal.num 3), ("y", JVal.num 4)],
      some [("type", JVal.str "key"), ("key", JVal.str "a")],
      some [("type", JVal.str "mouse_move"), ("dx", JVal.num 10)]]
     (by decide)⟩

/-! ## Screen capture track (`ScreenTrack.recv`, source lines 87-124)

The raw grab is an abstract pixel buffer carrying its dimensions; a frame is
the (possibly rescaled) image together with the ellipse overlays drawn on
it.  Python float arithmetic on `self.scale` is modelled over `ℚ`, with
`int(...)` truncation toward zero.  The `xdotool getmouselocation` call is a
fallible external query returning its stdout; the `re.search` calls for
`X=(\d+)` and `Y=(\d+)` are embedded as a character scan. -/

/-- A raw `mss` grab of the monitor: an abstract pixel buffer with its
dimensions. -/
structure RawGrab where
  width : Nat
  height : Nat
deriving DecidableEq, Repr

/-- One `ImageDraw.ellipse` call: bounding box and whether it was the white
fill (`true`) or the black outline (`false`). -/
structure EllipseMark where
  x0 : Int
  y0 : Int
  x1 : Int
  y1 : Int
  fill : Bool
deriving DecidableEq, Repr

/-- The produced frame: final dimensions and the cursor-overlay marks drawn
on it, in drawing order. -/
structure Frame where
  width : Nat
  height : Nat
  marks : List EllipseMark
deriving DecidableEq, Repr

/-- Python `int(q)` on a nonnegative float value: truncation toward zero. -/
def pyTrunc (q : ℚ) : Int :=
  q.num.tdiv q.den

/-- Decimal digits to a number (for the regex capture group). -/
def digitsToNat (ds : List Char) : Nat :=
  ds.foldl (fun a c => a * 10 + (c.toNat - 48)) 0

/-- Match `=(\d+)` at the head of the character list. -/
def matchEqDigits : List Char → Option Nat
  | '=' :: rest =>
    let ds := rest.takeWhile Char.isDigit
    if ds.isEmpty then none else some (digitsToNat ds)
  | _ => none

/-- Embedding of `re.search(key + "=(\d+)", out)`: scan for the first
occurrence of the key character followed by `=` and at least one digit. -/
def searchKeyNum (key : Char) : List Char → Option Nat
  | [] => none
  | c :: rest =>
    if c = key then
      match matchEqDigits rest with
      | some n => some n
      | none => searchKeyNum key rest
    else searchKeyNum key rest

/-- The frame before the cursor overlay (source lines 91-97): the grabbed
image, resized by `scale` when `scale != 1.0`. -/
def scaledFrame (scale : ℚ) (g : RawGrab) : Frame :=
  if scale ≠ 1 then
    ⟨(pyTrunc (g.width * scale)).toNat, (pyTrunc (g.height * scale)).toNat, []⟩
  else ⟨g.width, g.height, []⟩

/-- Embedding of `ScreenTrack.recv` (source lines 87-124).  `mloc` is the
outcome of `subprocess.check_output(['xdotool', 'getmouselocation',
'--shell'], ...)`: `.error` models the call raising, `.ok out` its stdout.
The whole overlay block sits in a `try/except Exception: pass`. -/
def ScreenTrack_recv (scale : ℚ) (g : RawGrab) (mloc : Except Unit String) :
    Frame :=
  let pil := scaledFrame scale g
  match mloc with
  | .error _ => pil
  | .ok out =>
    match searchKeyNum 'X' out.data, searchKeyNum 'Y' out.data with
    | some mx, some my =>
      let cx : Int := if scale ≠ 1 then pyTrunc (mx * scale) else (mx : Int)
      let cy : Int := if scale ≠ 1 then pyTrunc (my * scale) else (my : Int)
      let r : Int := max 2 (pyTrunc ((pil.width : ℚ) * (1 / 100)))
      { pil with
        marks := [⟨cx - r, cy - r, cx + r, cy + r, true⟩,
                  ⟨cx - r - 1, cy - r - 1, cx + r + 1, cy + r + 1, false⟩] }
    | _, _ => pil

/-- C10: when the pointer-position query for the cursor overlay raises, the
exception is swallowed by the overlay's `try/except` and `recv` still
returns the scaled frame, with no cursor marks drawn: the capture loop is
neither terminated nor interrupted. -/
theorem recv_overlay_failure_swallowed (scale : ℚ) (g : RawGrab) :
    ScreenTrack_recv scale g (.error ()) = scaledFrame scale g
    ∧ (scaledFrame scale g).marks = [] := by
  constructor
  · rfl
  · unfold scaledFrame
    split <;> rfl

/-! ## Session Manager: authentication handshake (spec-modelled) -/

theorem or_eq_zero_iff_both (a b : Nat) : a ||| b = 0 ↔ a = 0 ∧ b = 0 := by
  constructor
  · intro h
    constructor
    · apply Nat.eq_of_testBit_eq
      intro i
      have h2 := congrArg (fun n => n.testBit i) h
      simp only [Nat.testBit_or, Nat.zero_testBit, Bool.or_eq_false_iff] at h2
      simp [h2.1]
    · apply Nat.eq_of_testBit_eq
      intro i
      have h2 := congrArg (fun n => n.testBit i) h
      simp only [Nat.testBit_or, Nat.zero_testBit, Bool.or_eq_false_iff] at h2
      simp [h2.2]
  · rintro ⟨rfl, rfl⟩
    rfl

/-- Modelled from the spec: the constant-structure secret comparison
(spec §4.5) is not present in `src/`.  The scan walks every byte pair of
the zipped secrets, accumulating the bitwise OR of the per-byte XOR
differences, and counts its loop iterations — the timing model of the
compare (no early exit on the first differing byte). -/
def ctScan : List (Nat × Nat) → Nat × Nat
  | [] => (0, 0)
  | p :: rest =>
    let r := ctScan rest
    ((p.1 ^^^ p.2) ||| r.1, r.2 + 1)

/-- Modelled from the spec: timing-safe equality of two byte secrets:
lengths equal and the accumulated difference word zero. -/
def ctEq (a b : List Nat) : Bool :=
  decide (a.length = b.length) && decide ((ctScan (a.zip b)).1 = 0)

/-- The comparison's cost in the timing model: the scan's loop iterations. -/
def ctTime (a b : List Nat) : Nat :=
  (ctScan (a.zip b)).2

theorem ctScan_snd (l : List (Nat × Nat)) : (ctScan l).2 = l.length := by
  induction l with
  | nil => rfl
  | cons p rest ih => simp [ctScan, ih]

theorem ctTime_eq_min (a b : List Nat) : ctTime a b = min a.length b.length := by
  rw [ctTime, ctScan_snd, List.length_zip]

theorem ctScan_fst_eq_zero (a b : List Nat) (h : a.length = b.length) :
    ((ctScan (a.zip b)).1 = 0 ↔ a = b) := by
  induction a generalizing b with
  | nil =>
    cases b with
    | nil => simp [ctScan]
    | cons y ys => simp at h
  | cons x xs ih =>
    cases b with
    | nil => simp at h
    | cons y ys =>
      simp only [List.length_cons, Nat.add_right_cancel_iff] at h
      simp only [List.zip_cons_cons, ctScan, or_eq_zero_iff_both, Nat.xor_eq_zero,
        List.cons.injEq]
      exact and_congr_right fun _ => ih ys h

theorem ctEq_iff (a b : List Nat) : ctEq a b = true ↔ a = b := by
  rw [ctEq, Bool.and_eq_true, decide_eq_true_iff, decide_eq_true_iff]
  constructor
  · rintro ⟨hl, hz⟩
    exact (ctScan_fst_eq_zero a b hl).mp hz
  · rintro rfl
    exact ⟨rfl, (ctScan_fst_eq_zero a a rfl).mpr rfl⟩

/-- State of the connection after the authentication attempt. -/
inductive ChannelState where
  | remainsOpen
  | closed
deriving DecidableEq, Repr

/-- A server-to-client message of the authenticated session. -/
inductive WireMsg where
  | screenSize (w h : Nat)
  | frame (payload : List Nat)
deriving DecidableEq, Repr

def isScreenSize : WireMsg → Bool
  | .screenSize _ _ => true
  | .frame _ => false

/-- Modelled from the spec: the Session Manager handshake (spec §4.5, §6) is
not present in `src/`.  It reads exactly one message, compares the received
secret against the configured one with the timing-safe compare; on mismatch
it closes immediately and sends nothing; on success it sends the
`screen_size` control message once — with the geometry read once from the
capture source — and then the frame stream.  `sessionWire` is the full
server-to-client message trace of a session. -/
def sessionWire (configured received : List Nat) (geom : Nat × Nat)
    (frames : List (List Nat)) : List WireMsg :=
  if ctEq configured received then
    WireMsg.screenSize geom.1 geom.2 :: frames.map WireMsg.frame
  else []

/-- Modelled from the spec: the channel state after the authentication
attempt: closed at once on mismatch, kept open on success. -/
def authChannel (configured received : List Nat) : ChannelState :=
  if ctEq configured received then .remainsOpen else .closed

/-- C1: authenticating with a wrong secret `s2` against a session configured
with `s1` yields an empty response trace and a closed channel, and the
compare's cost depends only on the secrets' lengths, not on their matching
prefix: any `s3` of the same length as `s2` costs exactly the same. -/
theorem auth_mismatch_silent_constant_time (s1 s2 s3 : List Nat)
    (geom : Nat × Nat) (frames : List (List Nat))
    (hne : s1 ≠ s2) (hlen : s3.length = s2.length) :
    sessionWire s1 s2 geom frames = []
    ∧ authChannel s1 s2 = .closed
    ∧ ctTime s1 s3 = ctTime s1 s2 := by
  have heq : ctEq s1 s2 = false := by
    rcases hb : ctEq s1 s2 with _ | _
    · rfl
    · exact absurd ((ctEq_iff s1 s2).mp hb) hne
  refine ⟨?_, ?_, ?_⟩
  · rw [sessionWire, heq]
    rfl
  · rw [authChannel, heq]
    rfl
  · rw [ctTime_eq_min, ctTime_eq_min, hlen]

/-- Witness for C1: `s2` shares a two-byte prefix with the secret `s1`,
`s3` shares none; the compare costs the same on both. -/
theorem auth_mismatch_silent_constant_time_witness :
    sessionWire [1, 2, 3] [1, 2, 4] (1920, 1080) [[5]] = []
    ∧ authChannel [1, 2, 3] [1, 2, 4] = .closed
    ∧ ctTime [1, 2, 3] [9, 9, 9] = ctTime [1, 2, 3] [1, 2, 4] :=
  auth_mismatch_silent_constant_time [1, 2, 3] [1, 2, 4] [9, 9, 9] (1920, 1080)
    [[5]] (by decide) (by decide)

/-- C3: on successful authentication the session's server-to-client trace
contains exactly one `screen_size` message; it is the very first message
(hence before any frame), it carries the geometry read from the capture
source, and any `screen_size` in the trace equals it (the announced
geometry never changes). -/
theorem screen_size_once_before_frames (s : List Nat) (W H : Nat)
    (frames : List (List Nat)) (m : WireMsg)
    (hm : m ∈ sessionWire s s (W, H) frames) (hss : isScreenSize m = true) :
    (sessionWire s s (W, H) frames).countP isScreenSize = 1
    ∧ (sessionWire s s (W, H) frames).head? = some (.screenSize W H)
    ∧ m = .screenSize W H := by
  have hok : ctEq s s = true := (ctEq_iff s s).mpr rfl
  rw [sessionWire, hok, if_pos rfl] at hm ⊢
  refine ⟨?_, rfl, ?_⟩
  · rw [List.countP_cons_of_pos _ _ (by rfl)]
    have hz : (frames.map WireMsg.frame).countP isScreenSize = 0 := by
      rw [List.countP_eq_zero]
      intro a ha
      obtain ⟨p, _, rfl⟩ := List.mem_map.mp ha
      simp [isScreenSize]
    rw [hz]
  · rcases List.mem_cons.mp hm with rfl | hmem
    · rfl
    · obtain ⟨p, _, rfl⟩ := List.mem_map.mp hmem
      simp [isScreenSize] at hss

/-! ## Injector backend selection (spec-modelled) -/

/-- The two mutually-exclusive injector backends (spec §4.2). -/
inductive Backend where
  | rawDevice
  | windowSystemCommand
deriving DecidableEq, Repr

/-- Modelled from the spec: the capability-resolution step at process
startup (spec §4.2, §9) is not present in `src/` (the source variant has
only the xdotool path).  RawDevice construction is attempted once;
`.error` models the host denying device-creation privilege
(`PermissionError`), which selects the WindowSystemCommand backend instead
of crashing. -/
def selectBackend (rawConstruct : Except Unit Unit) : Backend :=
  match rawConstruct with
  | .ok _ => .rawDevice
  | .error _ => .windowSystemCommand

/-- A normalized input command handed to the process-wide injector. -/
inductive InputCommand where
  | mouseAbs (x y : Int) (button pressed : JVal)
  | key (k pressed : JVal)
deriving DecidableEq, Repr

/-- Dispatch one input command through a backend.  The WindowSystemCommand
branch is the source's xdotool path (`inject_mouse_abs`/`inject_key`).
Modelled from the spec: the RawDevice emission path is not in `src/`; it
issues no window-system command, so its xdotool log is empty and it cannot
log a window-system error. -/
def dispatchInput (run : Cmd → Bool) (b : Backend) : InputCommand → InjectResult
  | .mouseAbs x y button pressed =>
    match b with
    | .windowSystemCommand => inject_mouse_abs run x y button pressed
    | .rawDevice => ⟨[], false⟩
  | .key k pressed =>
    match b with
    | .windowSystemCommand => inject_key run k pressed
    | .rawDevice => ⟨[], false⟩

/-- Modelled from the spec: the backend is selected exactly once at process
startup; every subsequent command of the process's lifetime is dispatched
through that same backend (selection never reruns per command).  The trace
pairs each command's dispatching backend with its result. -/
def processDispatch (run : Cmd → Bool) (rawConstruct : Except Unit Unit)
    (cmds : List InputCommand) : List (Backend × InjectResult) :=
  let b := selectBackend rawConstruct
  cmds.map (fun c => (b, dispatchInput run b c))

theorem tryInject_all_ok (run : Cmd → Bool) (l : List Cmd)
    (h : l.all run = true) : tryInject run l = ⟨l, false⟩ := by
  rw [tryInject, attemptCmds_ok_of_all run l h]

/-- C8: when RawDevice construction fails at startup, the process selects
the WindowSystemCommand backend (no crash: selection is total), every
subsequent command of the process is dispatched through that same backend
(the fallback happened once at startup, not per command), and with a
healthy window system every such command succeeds (no error logged). -/
theorem raw_device_fallback (run : Cmd → Bool) (cmds : List InputCommand)
    (p : Backend × InjectResult)
    (hrun : ∀ c, run c = true)
    (hp : p ∈ processDispatch run (.error ()) cmds) :
    selectBackend (.error ()) = .windowSystemCommand
    ∧ p.1 = .windowSystemCommand
    ∧ p.2.errorLogged = false := by
  refine ⟨rfl, ?_⟩
  simp only [processDispatch, selectBackend, List.mem_map] at hp
  obtain ⟨c, _, rfl⟩ := hp
  refine ⟨rfl, ?_⟩
  cases c with
  | mouseAbs x y button pressed =>
    have : (mouseAbsCmds x y button pressed).all run = true := by
      simp [List.all_eq_true, hrun]
    simp [dispatchInput, inject_mouse_abs, tryInject_all_ok run _ this]
  | key k pressed =>
    have : (keyCmds k pressed).all run = true := by
      simp [List.all_eq_true, hrun]
    simp [dispatchInput, inject_key, tryInject_all_ok run _ this]

/-- Witness for C8: permission denied at startup, then a key press and an
absolute mouse click both dispatched via WindowSystemCommand. -/
theorem raw_device_fallback_witness :
    selectBackend (.error ()) = .windowSystemCommand
    ∧ (Backend.windowSystemCommand,
        InjectResult.mk [Cmd.keydown "a"] false).1 = .windowSystemCommand
    ∧ (Backend.windowSystemCommand,
        InjectResult.mk [Cmd.keydown "a"] false).2.errorLogged = false :=
  raw_device_fallback (fun _ => true)
    [InputCommand.key (.str "a") (.bool true),
     InputCommand.mouseAbs 1 2 (.str "left") (.bool true)]
    (Backend.windowSystemCommand, InjectResult.mk [Cmd.keydown "a"] false)
    (fun _ => rfl) (by decide)

/-- Witness for C3: a session authenticated with secret `[7]`, geometry
1920x1080, two frames. -/
theorem screen_size_once_before_frames_witness :
    (sessionWire [7] [7] (1920, 1080) [[1], [2]]).countP isScreenSize = 1
    ∧ (sessionWire [7] [7] (1920, 1080) [[1], [2]]).head?
        = some (.screenSize 1920 1080)
    ∧ WireMsg.screenSize 1920 1080 = .screenSize 1920 1080 :=
  screen_size_once_before_frames [7] 1920 1080 [[1], [2]]
    (.screenSize 1920 1080) (by decide) (by decide)
